import Mathlib

/-!
Verification development for the forex trading bot decision core
(`forex_bot.py`).  The bot's mutable session state, the signal-generation
pipeline, the position lifecycle manager, the trade-history bookkeeping,
the daily reset and the per-tick orchestration loop are embedded as pure
Lean functions; all broker/market-gateway calls (account summary, price
fetches, the strategy's `analyze` output, order placement results) are
modelled as explicit environment inputs, since they are external
collaborators of the core.  Prices and monetary quantities are rationals.

The helper routines of `RiskManager` (`calculate_position_size_fixed_risk`,
`calculate_kelly_criterion`, `adjust_position_for_volatility`,
`check_correlation_risk`) live in `trading_algorithms.py`, which is not
among the sources; those four are modelled from the specification's own
descriptions and are marked as such in their doc comments.
-/

namespace ForexBot

/-- The `Signal` enumeration from `trading_algorithms` as consumed by
`forex_bot.py` (`HOLD`, `BUY`, `SELL`, `STRONG_BUY`, `STRONG_SELL`). -/
inductive Signal where
  | HOLD
  | BUY
  | SELL
  | STRONG_BUY
  | STRONG_SELL
deriving DecidableEq, Repr

/-- A currency pair such as `EUR_USD`, kept as its two currency-code
components (the Python code stores the joined string). -/
structure Instrument where
  base : String
  quote : String
deriving DecidableEq, Repr

/-- The fields of the strategy's `TradingSignal` that `forex_bot.py`
reads: `signal`, `confidence`, `entry_price`, `stop_loss`, `take_profit`,
and `indicators.get('atr', 0)` collapsed into the single scalar `atr`. -/
structure TradingSignal where
  signal : Signal
  confidence : ℚ
  entry_price : ℚ
  stop_loss : ℚ
  take_profit : ℚ
  atr : ℚ
deriving DecidableEq, Repr

/-- One entry of `self.trade_history` as appended by
`update_trade_history`: a timestamp, the instrument and the realized
PnL. -/
structure TradeRecord where
  timestamp : ℕ
  instrument : Instrument
  pnl : ℚ
deriving DecidableEq, Repr

/-- The risk configuration dictionary `self.risk_config`. -/
structure RiskConfig where
  max_risk_per_trade : ℚ
  max_daily_loss : ℚ
  position_scaling : Bool
  use_kelly_criterion : Bool
deriving DecidableEq, Repr

/-- The bot's mutable session state: `daily_pnl`, `trades_today`,
`winning_trades`, `losing_trades` and the `trade_history` list. -/
structure BotState where
  daily_pnl : ℚ
  trades_today : ℕ
  winning_trades : ℕ
  losing_trades : ℕ
  trade_history : List TradeRecord
deriving DecidableEq, Repr

/-- The state installed by `__init__` (lines 101-109): zero counters and
an empty trade history. -/
def init_state : BotState :=
  { daily_pnl := 0, trades_today := 0, winning_trades := 0,
    losing_trades := 0, trade_history := [] }

/-- The trade dictionary returned by `generate_signal_advanced` on
success (the fields the orchestrator consumes). -/
structure Order where
  instrument : Instrument
  units : ℤ
  signal : Signal
  confidence : ℚ
  entry_price : ℚ
  stop_loss : ℚ
  take_profit : ℚ
  risk_percent : ℚ
deriving DecidableEq, Repr

/-- An open position as observed through `get_open_positions`:
instrument, `unrealizedPL`, and signed units (positive = long,
negative = short). -/
structure Position where
  instrument : Instrument
  unrealized_pl : ℚ
  units : ℤ
deriving DecidableEq, Repr

/-- Python `int()` truncation toward zero, on rationals. -/
def ratTrunc (q : ℚ) : ℤ :=
  if 0 ≤ q then ⌊q⌋ else ⌈q⌉

/-- `np.mean` on a list of rationals (callers guard against empty
lists). -/
def listMean (l : List ℚ) : ℚ :=
  l.sum / l.length

/-- Modelled from the spec: `RiskManager.calculate_position_size_fixed_risk`
is defined in `trading_algorithms.py`, which is missing from the sources.
The spec: raw size = (balance × riskFraction) ÷ stopDistance. -/
def calculate_position_size_fixed_risk (balance stopDistance riskFraction : ℚ) : ℚ :=
  balance * riskFraction / stopDistance

/-- Modelled from the spec: `RiskManager.adjust_position_for_volatility`
is defined in `trading_algorithms.py`, which is missing from the sources.
The spec: scales `size` by `averageAtr / currentAtr`, clamped to the
range [0.5, 1.5] (the zero-ATR skip is enforced by the caller). -/
def adjust_position_for_volatility (size currentAtr averageAtr : ℚ) : ℚ :=
  size * max (1/2) (min (3/2) (averageAtr / currentAtr))

/-- Modelled from the spec: `RiskManager.calculate_kelly_criterion` is
defined in `trading_algorithms.py`, which is missing from the sources.
The spec: f* = winRate − (1 − winRate) / (avgWin ÷ avgLoss), clipped to
[0, maxRiskPerTrade]. -/
def calculate_kelly_criterion (cfg : RiskConfig) (winRate avgWin avgLoss : ℚ) : ℚ :=
  max 0 (min cfg.max_risk_per_trade (winRate - (1 - winRate) / (avgWin / avgLoss)))

/-- Modelled from the spec: `RiskManager.check_correlation_risk` is
defined in `trading_algorithms.py`, which is missing from the sources.
The spec: two instruments are correlated if they share either currency
code component; the check passes (returns `true`) exactly when no open
instrument is correlated with the candidate. -/
def check_correlation_risk (candidate : Instrument) (openInstruments : List Instrument) : Bool :=
  openInstruments.all fun o =>
    candidate.base ≠ o.base && candidate.base ≠ o.quote &&
    candidate.quote ≠ o.base && candidate.quote ≠ o.quote

/-- The risk-fraction computation of `generate_signal_advanced`
(lines 215-231): Kelly statistics from the trade history when Kelly is
enabled and `len(trade_history) > 20` and both wins and losses are
present; `max_risk_per_trade` otherwise. -/
def compute_risk_percent (cfg : RiskConfig) (history : List TradeRecord) : ℚ :=
  if cfg.use_kelly_criterion = true ∧ 20 < history.length then
    let wins := (history.filter fun t => 0 < t.pnl).map fun t => t.pnl
    let losses := (history.filter fun t => t.pnl < 0).map fun t => |t.pnl|
    if wins ≠ [] ∧ losses ≠ [] then
      let win_rate : ℚ := (wins.length : ℚ) / history.length
      calculate_kelly_criterion cfg win_rate (listMean wins) (listMean losses)
    else
      cfg.max_risk_per_trade
  else
    cfg.max_risk_per_trade

/-- The position-size pipeline of `generate_signal_advanced`
(lines 233-249): fixed-risk size, volatility adjustment when the
signal's ATR is positive, then `int(position_size / 100) * 100`. -/
def rounded_position_size (balance stop_distance risk_percent atr avg_atr : ℚ) : ℤ :=
  let ps := calculate_position_size_fixed_risk balance stop_distance risk_percent
  let ps := if 0 < atr then adjust_position_for_volatility ps atr avg_atr else ps
  ratTrunc (ps / 100) * 100

/-- Everything `generate_signal_advanced` obtains from external
collaborators during one evaluation: the account summary (balance, or
`none` on failure), whether the 200-bar history frame came back
non-empty, the current mid price, the strategy's `analyze` output, the
instruments of the currently open positions, and the 20-bar rolling
high-low range mean `avg_atr` computed at lines 241-242 from the fetched
frame. -/
structure SignalEnv where
  account : Option ℚ
  hist_nonempty : Bool
  current_price : Option ℚ
  algo_signal : TradingSignal
  open_instruments : List Instrument
  avg_atr : ℚ
deriving DecidableEq, Repr

/-- `generate_signal_advanced` (lines 174-273).  `none` mirrors every
`return None` path: failed account fetch, tripped daily-loss gate, empty
history frame, missing or zero current price (Python's
`if not current_price`), Hold or low-confidence signal, correlation
rejection, and a rounded size below the 100-unit minimum. -/
def generate_signal_advanced (cfg : RiskConfig) (st : BotState) (env : SignalEnv)
    (instrument : Instrument) : Option Order :=
  match env.account with
  | none => none
  | some balance =>
    if st.daily_pnl ≤ -balance * cfg.max_daily_loss then none
    else if env.hist_nonempty = false then none
    else
      match env.current_price with
      | none => none
      | some current_price =>
        if current_price = 0 then none
        else
          let signal := env.algo_signal
          if signal.signal = Signal.HOLD ∨ signal.confidence < 1/2 then none
          else if check_correlation_risk instrument env.open_instruments = false then none
          else
            let stop_distance := |current_price - signal.stop_loss|
            let risk_percent := compute_risk_percent cfg st.trade_history
            let position_size :=
              rounded_position_size balance stop_distance risk_percent signal.atr env.avg_atr
            if |position_size| < 100 then none
            else
              let units :=
                if signal.signal = Signal.BUY ∨ signal.signal = Signal.STRONG_BUY then
                  position_size
                else
                  -position_size
              some { instrument := instrument, units := units, signal := signal.signal,
                     confidence := signal.confidence, entry_price := signal.entry_price,
                     stop_loss := signal.stop_loss, take_profit := signal.take_profit,
                     risk_percent := risk_percent }

/-- `update_trade_history` (lines 379-398): append the record, keep only
the last 100 entries, bump the win/loss counter, add the PnL to
`daily_pnl`. -/
def update_trade_history (st : BotState) (now : ℕ) (instrument : Instrument)
    (pnl : ℚ) : BotState :=
  let h := st.trade_history ++ [⟨now, instrument, pnl⟩]
  let h := if 100 < h.length then h.drop (h.length - 100) else h
  { st with
    trade_history := h,
    winning_trades := if 0 < pnl then st.winning_trades + 1 else st.winning_trades,
    losing_trades := if 0 < pnl then st.losing_trades else st.losing_trades + 1,
    daily_pnl := st.daily_pnl + pnl }

/-- `reset_daily_stats` (lines 464-472), with the current UTC hour made
an explicit argument: zero `daily_pnl` and `trades_today` only when the
hour is 0 and at least one trade happened today. -/
def reset_daily_stats (hour : ℕ) (st : BotState) : BotState :=
  if hour = 0 ∧ 0 < st.trades_today then
    { st with daily_pnl := 0, trades_today := 0 }
  else st

/-- What `manage_positions` observes for one open position: the position
itself, whether the 50-bar history frame came back non-empty, the
current mid price, and the strategy's fresh `analyze` output. -/
structure PositionView where
  position : Position
  hist_nonempty : Bool
  current_price : Option ℚ
  signal : TradingSignal
deriving DecidableEq, Repr

/-- The reversal condition of `manage_positions` (lines 357-365): a long
position with a Sell-side signal, or a short position with a Buy-side
signal.  The code applies no confidence threshold here. -/
def reversalCond (units : ℤ) (s : Signal) : Prop :=
  (0 < units ∧ (s = Signal.SELL ∨ s = Signal.STRONG_SELL)) ∨
  (units < 0 ∧ (s = Signal.BUY ∨ s = Signal.STRONG_BUY))

instance (units : ℤ) (s : Signal) : Decidable (reversalCond units s) := by
  unfold reversalCond; infer_instance

/-- The body of `manage_positions`' per-position loop (lines 339-377).
Returns the state after the iteration together with the close requests
it issued (`close_position` plus `update_trade_history` on a reversal;
the trailing-stop branch computes an advisory stop and changes
nothing). -/
def manage_one (now : ℕ) (st : BotState) (pv : PositionView) :
    BotState × List Instrument :=
  let instrument := pv.position.instrument
  if pv.hist_nonempty = false then (st, [])
  else
    match pv.current_price with
    | none => (st, [])
    | some current_price =>
      if current_price = 0 then (st, [])
      else if reversalCond pv.position.units pv.signal.signal then
        (update_trade_history st now instrument pv.position.unrealized_pl, [instrument])
      else (st, [])

/-- `manage_positions` (lines 335-377): fold the per-position body over
the observed open positions, collecting the close requests in order. -/
def manage_positions (now : ℕ) (st : BotState) (views : List PositionView) :
    BotState × List Instrument :=
  views.foldl
    (fun acc pv =>
      let r := manage_one now acc.1 pv
      (r.1, acc.2 ++ r.2))
    (st, [])

/-- The new-entry loop of `execute_trading_cycle` (lines 427-459), with
the per-instrument gateway environment and the order-placement outcome
supplied externally.  Produces the state after the loop and the list of
order requests paired with their success flag: a held instrument is
skipped, a `None` signal is skipped, a successful placement bumps
`trades_today` and breaks out of the loop, a failed placement moves on
to the next instrument. -/
def loop_entries (cfg : RiskConfig) (st : BotState) (positions : List Position)
    (sigEnv : Instrument → SignalEnv) (order_success : Instrument → Bool) :
    List Instrument → BotState × List (Order × Bool)
  | [] => (st, [])
  | i :: rest =>
    if (positions.filter fun p => p.instrument = i) ≠ [] then
      loop_entries cfg st positions sigEnv order_success rest
    else
      match generate_signal_advanced cfg st (sigEnv i) i with
      | none => loop_entries cfg st positions sigEnv order_success rest
      | some ord =>
        if order_success i then
          ({ st with trades_today := st.trades_today + 1 }, [(ord, true)])
        else
          let r := loop_entries cfg st positions sigEnv order_success rest
          (r.1, (ord, false) :: r.2)

/-- Everything one call of `execute_trading_cycle` obtains from external
collaborators: the per-position observations for `manage_positions`, the
open-position list fetched at line 425, the per-instrument environment
for `generate_signal_advanced`, the order-placement outcomes, and the
timestamp used for trade-history records. -/
structure CycleEnv where
  views : List PositionView
  positions : List Position
  sigEnv : Instrument → SignalEnv
  order_success : Instrument → Bool
  now : ℕ

/-- `execute_trading_cycle` (lines 400-459), decision core only (the
account-summary block at lines 404-419 merely logs): manage the open
positions first, then, when the open-position count is below
`max_positions`, run the new-entry loop.  Returns the resulting state,
the close requests, and the order requests with their outcomes. -/
def execute_trading_cycle (cfg : RiskConfig) (instruments : List Instrument)
    (max_positions : ℕ) (env : CycleEnv) (st : BotState) :
    BotState × List Instrument × List (Order × Bool) :=
  let m := manage_positions env.now st env.views
  if env.positions.length < max_positions then
    let e := loop_entries cfg m.1 env.positions env.sigEnv env.order_success instruments
    (e.1, m.2, e.2)
  else
    (m.1, m.2, [])

/-! Concrete fixtures used to evaluate the model on explicit inputs. -/

/-- The default risk configuration of `__init__` (lines 87-92): 1% risk
per trade, 5% max daily loss, Kelly disabled. -/
def cfg0 : RiskConfig :=
  { max_risk_per_trade := 1/100, max_daily_loss := 1/20,
    position_scaling := true, use_kelly_criterion := false }

/-- The default risk configuration with Kelly sizing enabled. -/
def cfg4 : RiskConfig :=
  { cfg0 with use_kelly_criterion := true }

def eur_usd : Instrument := ⟨"EUR", "USD"⟩

def gbp_jpy : Instrument := ⟨"GBP", "JPY"⟩

/-- A confident Buy signal whose stop sits 0.0020 below the price
11/10. -/
def sigBuy : TradingSignal :=
  { signal := Signal.BUY, confidence := 3/4, entry_price := 11/10,
    stop_loss := 549/500, take_profit := 23/20, atr := 0 }

/-- A gateway environment with a 10000 balance, non-empty history, mid
price 11/10, the `sigBuy` signal and no open positions. -/
def envBuy : SignalEnv :=
  { account := some 10000, hist_nonempty := true, current_price := some (11/10),
    algo_signal := sigBuy, open_instruments := [], avg_atr := 0 }

/-- `envBuy` with the strategy reporting Hold. -/
def envHold : SignalEnv :=
  { envBuy with algo_signal := { sigBuy with signal := Signal.HOLD } }

/-- `envBuy` with a stop 2.0 away from the price 2, so that the raw
fixed-risk size 10000 × 0.01 / 2 = 50 rounds down to 0 units. -/
def envSmall : SignalEnv :=
  { envBuy with current_price := some 2,
                algo_signal := { sigBuy with stop_loss := 0 } }

/-- The order `generate_signal_advanced` produces from `envBuy` at the
spec's sizing example (balance 10000, stop distance 0.0020, risk
fraction 0.01). -/
def ordBuy : Order :=
  { instrument := eur_usd, units := 50000, signal := Signal.BUY,
    confidence := 3/4, entry_price := 11/10, stop_loss := 549/500,
    take_profit := 23/20, risk_percent := 1/100 }

/-- A trade history of exactly 20 records: ten wins of +1 and ten losses
of −1. -/
def hist20 : List TradeRecord :=
  List.replicate 10 (⟨0, eur_usd, 1⟩ : TradeRecord) ++
  List.replicate 10 (⟨0, eur_usd, -1⟩ : TradeRecord)

/-- A long 100-unit position on EUR_USD currently down 25. -/
def posLong : Position := ⟨eur_usd, -25, 100⟩

/-- A Sell signal with confidence 0. -/
def sigSellWeak : TradingSignal :=
  { signal := Signal.SELL, confidence := 0, entry_price := 11/10,
    stop_loss := 549/500, take_profit := 23/20, atr := 0 }

/-- The lifecycle manager's observation of `posLong` under the
zero-confidence Sell signal. -/
def pvReversal : PositionView := ⟨posLong, true, some (11/10), sigSellWeak⟩

/-- A state at UTC hour 0 with two trades today, one win, one loss. -/
def stHourZero : BotState :=
  { daily_pnl := -50, trades_today := 2, winning_trades := 1,
    losing_trades := 1, trade_history := [] }

/-- A state whose daily-loss gate is tripped against a 10000 balance
under `cfg0` (−600 ≤ −500) after one trade today. -/
def stBlocked : BotState :=
  { daily_pnl := -600, trades_today := 1, winning_trades := 0,
    losing_trades := 1, trade_history := [] }

/-- A state with a tripped gate but zero `trades_today`, as produced by
reversal-exit closes alone. -/
def stNoTrades : BotState :=
  { daily_pnl := -600, trades_today := 0, winning_trades := 3,
    losing_trades := 4, trade_history := [] }

/-- A cycle environment with two candidate instruments, no open
positions, the `envBuy` gateway data for every instrument, and order
placement failing for EUR_USD but succeeding for GBP_JPY. -/
def cenvTwo : CycleEnv :=
  { views := [], positions := [], sigEnv := fun _ => envBuy,
    order_success := fun i => decide (i = gbp_jpy), now := 7 }

/-! Theorems. -/

/-- C1: refuted at an explicit input.  At UTC hour 0, in a state with
two trades today, one win and one loss, `reset_daily_stats` leaves
`winning_trades` at 1 and `losing_trades` at 1 instead of clearing
them. -/
theorem C1_counterexample :
    (reset_daily_stats 0 stHourZero).winning_trades = 1 ∧
    (reset_daily_stats 0 stHourZero).losing_trades = 1 ∧
    (1 : ℕ) ≠ 0 := by
  refine ⟨?_, ?_, by decide⟩ <;> simp [reset_daily_stats, stHourZero]

/-- C1 (amended): at the UTC hour-0 boundary, when at least one trade
happened today, the daily reset zeroes `dailyPnL` and `tradesToday` and
leaves the win/loss counters (and the trade history) unchanged; with
`tradesToday = 0` the reset does not fire at all. -/
theorem C1_reset_semantics (st : BotState) (h : 0 < st.trades_today) :
    (reset_daily_stats 0 st).daily_pnl = 0 ∧
    (reset_daily_stats 0 st).trades_today = 0 ∧
    (reset_daily_stats 0 st).winning_trades = st.winning_trades ∧
    (reset_daily_stats 0 st).losing_trades = st.losing_trades ∧
    (reset_daily_stats 0 st).trade_history = st.trade_history := by
  simp [reset_daily_stats, h]

/-- Witness for C1's amended theorem at the hour-0 state with two trades
today. -/
theorem C1_reset_semantics_witness :
    (reset_daily_stats 0 stHourZero).daily_pnl = 0 ∧
    (reset_daily_stats 0 stHourZero).trades_today = 0 ∧
    (reset_daily_stats 0 stHourZero).winning_trades = stHourZero.winning_trades ∧
    (reset_daily_stats 0 stHourZero).losing_trades = stHourZero.losing_trades ∧
    (reset_daily_stats 0 stHourZero).trade_history = stHourZero.trade_history :=
  C1_reset_semantics stHourZero (by decide)

/-- C10: with `tradesToday = 0` the daily reset is a no-op at every
hour, hour 0 included; `update_trade_history` (position closes) never
touches `tradesToday`; and a tripped daily-loss gate therefore survives
the day boundary. -/
theorem C10_reset_noop_without_trades (hour : ℕ) (st : BotState)
    (h : st.trades_today = 0) :
    reset_daily_stats hour st = st ∧
    (∀ (st' : BotState) (now : ℕ) (i : Instrument) (pnl : ℚ),
      (update_trade_history st' now i pnl).trades_today = st'.trades_today) ∧
    (∀ balance maxDailyLoss : ℚ,
      st.daily_pnl ≤ -balance * maxDailyLoss →
      (reset_daily_stats hour st).daily_pnl ≤ -balance * maxDailyLoss) := by
  have hreset : reset_daily_stats hour st = st := by
    simp [reset_daily_stats, h]
  refine ⟨hreset, ?_, ?_⟩
  · intro st' now i pnl
    simp [update_trade_history]
  · intro balance maxDailyLoss hgate
    rw [hreset]
    exact hgate

/-- Witness for C10 at a state with a −600 daily PnL, no trades today,
and non-zero win/loss counters: the hour-0 reset changes nothing and the
gate against a 10000 balance at 5% stays blocked. -/
theorem C10_reset_noop_without_trades_witness :
    reset_daily_stats 0 stNoTrades = stNoTrades ∧
    (reset_daily_stats 0 stNoTrades).daily_pnl ≤ -10000 * (1/20 : ℚ) := by
  have h := C10_reset_noop_without_trades 0 stNoTrades rfl
  exact ⟨h.1, h.2.2 10000 (1/20) (by norm_num [stNoTrades])⟩

/-- C7: a Hold signal, or any signal with confidence below 0.5, yields
no trade from `generate_signal_advanced` — no sizing happens and no
order dictionary is returned, whatever the instrument, state or
remaining market data. -/
theorem C7_hold_or_low_confidence (cfg : RiskConfig) (st : BotState)
    (env : SignalEnv) (i : Instrument)
    (h : env.algo_signal.signal = Signal.HOLD ∨ env.algo_signal.confidence < 1/2) :
    generate_signal_advanced cfg st env i = none := by
  unfold generate_signal_advanced
  cases hacc : env.account with
  | none => rfl
  | some balance =>
    dsimp only
    split_ifs with h1 h2 <;> try rfl
    cases hcp : env.current_price with
    | none => rfl
    | some cp =>
      dsimp only
      split_ifs with h3 <;> rfl

/-- Witness for C7: the `envHold` environment (Hold signal) produces no
trade. -/
theorem C7_hold_or_low_confidence_witness :
    generate_signal_advanced cfg0 init_state envHold eur_usd = none :=
  C7_hold_or_low_confidence cfg0 init_state envHold eur_usd (Or.inl rfl)


/-- `generate_signal_advanced` yields nothing when the account summary
is unavailable. -/
theorem generate_signal_none_of_no_account (cfg : RiskConfig) (st : BotState)
    (env : SignalEnv) (i : Instrument) (h : env.account = none) :
    generate_signal_advanced cfg st env i = none := by
  unfold generate_signal_advanced
  rw [h]

/-- `generate_signal_advanced` yields nothing once the daily-loss gate
is tripped. -/
theorem generate_signal_none_of_gate (cfg : RiskConfig) (st : BotState)
    (env : SignalEnv) (i : Instrument) (balance : ℚ)
    (hacc : env.account = some balance)
    (hgate : st.daily_pnl ≤ -balance * cfg.max_daily_loss) :
    generate_signal_advanced cfg st env i = none := by
  unfold generate_signal_advanced
  rw [hacc]
  dsimp only
  rw [if_pos hgate]

/-- The new-entry loop places no order and changes nothing while the
gate is blocked for every instrument's observed balance. -/
theorem loop_entries_blocked (cfg : RiskConfig) (st : BotState)
    (positions : List Position) (sigEnv : Instrument → SignalEnv)
    (order_success : Instrument → Bool) (balance : ℚ)
    (hacc : ∀ i, (sigEnv i).account = none ∨ (sigEnv i).account = some balance)
    (hgate : st.daily_pnl ≤ -balance * cfg.max_daily_loss) :
    ∀ instruments, loop_entries cfg st positions sigEnv order_success instruments = (st, []) := by
  intro instruments
  induction instruments with
  | nil => rfl
  | cons i rest ih =>
    have hnone : generate_signal_advanced cfg st (sigEnv i) i = none := by
      rcases hacc i with h | h
      · exact generate_signal_none_of_no_account cfg st (sigEnv i) i h
      · exact generate_signal_none_of_gate cfg st (sigEnv i) i balance h hgate
    unfold loop_entries
    rw [hnone]
    split_ifs <;> exact ih

/-- C2: once `dailyPnL ≤ -balance * maxDailyLoss`, signal generation
returns no trade for any instrument and the new-entry loop requests no
order and leaves the state (hence the gate) unchanged; when the daily
reset fires (UTC hour 0 with at least one trade today) the daily PnL
becomes 0, which reopens the gate whenever `balance * maxDailyLoss` is
positive. -/
theorem C2_daily_loss_gate (cfg : RiskConfig) (st : BotState) (balance : ℚ)
    (positions : List Position) (sigEnv : Instrument → SignalEnv)
    (order_success : Instrument → Bool) (instruments : List Instrument)
    (hgate : st.daily_pnl ≤ -balance * cfg.max_daily_loss)
    (hacc : ∀ i, (sigEnv i).account = none ∨ (sigEnv i).account = some balance) :
    (∀ (env : SignalEnv) (i : Instrument), env.account = some balance →
      generate_signal_advanced cfg st env i = none) ∧
    loop_entries cfg st positions sigEnv order_success instruments = (st, []) ∧
    (0 < st.trades_today →
      (reset_daily_stats 0 st).daily_pnl = 0 ∧
      (0 < balance * cfg.max_daily_loss →
        ¬ (reset_daily_stats 0 st).daily_pnl ≤ -balance * cfg.max_daily_loss)) := by
  refine ⟨?_, ?_, ?_⟩
  · intro env i hacc'
    exact generate_signal_none_of_gate cfg st env i balance hacc' hgate
  · exact loop_entries_blocked cfg st positions sigEnv order_success balance hacc hgate instruments
  · intro htr
    have hz : (reset_daily_stats 0 st).daily_pnl = 0 := by
      simp [reset_daily_stats, htr]
    refine ⟨hz, ?_⟩
    intro hpos hle
    rw [hz] at hle
    nlinarith

/-- Witness for C2: the blocked state (−600 daily PnL against a 10000
balance at 5% max daily loss) produces no trade for EUR_USD, an
unchanged state from the entry loop, and a reopened gate after the
reset. -/
theorem C2_daily_loss_gate_witness :
    generate_signal_advanced cfg0 stBlocked envBuy eur_usd = none ∧
    loop_entries cfg0 stBlocked [] (fun _ => envBuy) (fun _ => true) [eur_usd, gbp_jpy]
      = (stBlocked, []) ∧
    (reset_daily_stats 0 stBlocked).daily_pnl = 0 ∧
    ¬ (reset_daily_stats 0 stBlocked).daily_pnl ≤ -10000 * cfg0.max_daily_loss := by
  have h := C2_daily_loss_gate cfg0 stBlocked 10000 [] (fun _ => envBuy) (fun _ => true)
    [eur_usd, gbp_jpy] (by norm_num [stBlocked, cfg0]) (fun i => Or.inr rfl)
  have h3 := h.2.2 (by norm_num [stBlocked])
  exact ⟨h.1 envBuy eur_usd rfl, h.2.1, h3.1, h3.2 (by norm_num [cfg0])⟩


/-- Every rounded position size is a multiple of the 100-unit lot
step. -/
theorem rounded_position_size_dvd (balance stop_distance risk_percent atr avg_atr : ℚ) :
    (100 : ℤ) ∣ rounded_position_size balance stop_distance risk_percent atr avg_atr := by
  unfold rounded_position_size
  exact dvd_mul_left 100 _

/-- C3: refuted at the spec's own example.  With balance 10000, stop
distance 0.0020 and risk fraction 0.01 the raw fixed-risk size is
50000 units, not 50, and the full pipeline places a 50000-unit order
instead of rejecting the candidate. -/
theorem C3_counterexample :
    calculate_position_size_fixed_risk 10000 (2/1000) (1/100) = 50000 ∧
    generate_signal_advanced cfg0 init_state envBuy eur_usd = some ordBuy ∧
    ordBuy.units = 50000 := by
  refine ⟨by norm_num [calculate_position_size_fixed_risk], ?_, rfl⟩
  norm_num [generate_signal_advanced, envBuy, cfg0, sigBuy, init_state,
    compute_risk_percent, rounded_position_size, calculate_position_size_fixed_risk,
    ratTrunc, check_correlation_risk, eur_usd, ordBuy]
  refine ⟨by decide, ?_, ?_⟩ <;>
    rw [abs_of_nonneg (by norm_num : (0:ℚ) ≤ 1/500)] <;> norm_num

/-- C3 (amended): whenever `generate_signal_advanced` produces an order,
its unsigned size is exactly the fixed-risk size (balance ×
riskFraction ÷ stopDistance), volatility-adjusted when the signal's ATR
is positive, truncated down to the 100-unit lot step; that size is at
least 100 and a multiple of 100, and whenever the rounded size is below
one lot step no order is produced. -/
theorem C3_position_sizing (cfg : RiskConfig) (st : BotState) (env : SignalEnv)
    (i : Instrument) (balance cp : ℚ)
    (hacc : env.account = some balance)
    (hcp : env.current_price = some cp) :
    (∀ ord, generate_signal_advanced cfg st env i = some ord →
      |ord.units| = |rounded_position_size balance (|cp - env.algo_signal.stop_loss|)
          (compute_risk_percent cfg st.trade_history) env.algo_signal.atr env.avg_atr| ∧
      100 ≤ |ord.units| ∧ (100 : ℤ) ∣ ord.units ∧
      ord.risk_percent = compute_risk_percent cfg st.trade_history) ∧
    (|rounded_position_size balance (|cp - env.algo_signal.stop_loss|)
        (compute_risk_percent cfg st.trade_history) env.algo_signal.atr env.avg_atr| < 100 →
      generate_signal_advanced cfg st env i = none) := by
  constructor
  · intro ord hord
    unfold generate_signal_advanced at hord
    rw [hacc, hcp] at hord
    dsimp only at hord
    split_ifs at hord with h1 h2 h3 h4 h5 h6 <;> try exact Option.noConfusion hord
    all_goals rw [Option.some.injEq] at hord
    all_goals subst hord
    all_goals refine ⟨?_, ?_, ?_, rfl⟩
    · rfl
    · exact not_lt.mp h6
    · exact rounded_position_size_dvd _ _ _ _ _
    · rw [abs_neg]
    · rw [abs_neg]
      exact not_lt.mp h6
    · exact dvd_neg.mpr (rounded_position_size_dvd _ _ _ _ _)
  · intro hlt
    unfold generate_signal_advanced
    rw [hacc, hcp]
    dsimp only
    split_ifs <;> rfl

/-- Witness for C3's amended theorem: with a stop 2.0 away from price 2
the raw size 50 truncates to 0 units, below one lot, and no trade is
produced. -/
theorem C3_position_sizing_witness :
    generate_signal_advanced cfg0 init_state envSmall eur_usd = none :=
  (C3_position_sizing cfg0 init_state envSmall eur_usd 10000 2 rfl rfl).2 (by
    norm_num [rounded_position_size, compute_risk_percent, cfg0,
      calculate_position_size_fixed_risk, ratTrunc, init_state, envSmall, envBuy, sigBuy])


/-- `hist20` extended to 21 records by one more winning trade. -/
def hist21 : List TradeRecord :=
  (⟨0, eur_usd, 1⟩ : TradeRecord) :: hist20

/-- C4: refuted at an explicit input.  With Kelly sizing enabled and a
trade history of exactly 20 records holding both wins and losses, the
code still uses `maxRiskPerTrade` (the guard is `len > 20`, not
`len ≥ 20`), although the Kelly fraction at those statistics would have
been different. -/
theorem C4_counterexample :
    cfg4.use_kelly_criterion = true ∧
    hist20.length = 20 ∧
    (hist20.filter fun t => 0 < t.pnl) ≠ [] ∧
    (hist20.filter fun t => t.pnl < 0) ≠ [] ∧
    compute_risk_percent cfg4 hist20 = cfg4.max_risk_per_trade ∧
    calculate_kelly_criterion cfg4
        (((hist20.filter fun t => 0 < t.pnl).length : ℚ) / hist20.length)
        (listMean ((hist20.filter fun t => 0 < t.pnl).map fun t => t.pnl))
        (listMean ((hist20.filter fun t => t.pnl < 0).map fun t => |t.pnl|)) ≠
      cfg4.max_risk_per_trade := by
  have hw : (hist20.filter fun t => 0 < t.pnl)
      = List.replicate 10 (⟨0, eur_usd, 1⟩ : TradeRecord) := by decide
  have hl : (hist20.filter fun t => t.pnl < 0)
      = List.replicate 10 (⟨0, eur_usd, -1⟩ : TradeRecord) := by decide
  refine ⟨rfl, by decide, by decide, by decide, ?_, ?_⟩
  · norm_num [compute_risk_percent, hist20, cfg4, cfg0]
  · rw [hw, hl]
    simp only [List.map_replicate, List.length_replicate]
    norm_num [listMean, List.sum_replicate, calculate_kelly_criterion, cfg4, cfg0, hist20]

/-- C4 (amended): with at most 20 historical trades the configured
`maxRiskPerTrade` is always used; the Kelly fraction is used exactly
when Kelly sizing is enabled, strictly more than 20 trades are recorded,
and both wins and losses are present; and the risk fraction recorded on
every produced order is exactly this computation. -/
theorem C4_kelly_threshold (cfg : RiskConfig) (history : List TradeRecord) :
    (history.length ≤ 20 → compute_risk_percent cfg history = cfg.max_risk_per_trade) ∧
    (cfg.use_kelly_criterion = true → 20 < history.length →
      (history.filter fun t => 0 < t.pnl) ≠ [] →
      (history.filter fun t => t.pnl < 0) ≠ [] →
      compute_risk_percent cfg history =
        calculate_kelly_criterion cfg
          (((history.filter fun t => 0 < t.pnl).length : ℚ) / history.length)
          (listMean ((history.filter fun t => 0 < t.pnl).map fun t => t.pnl))
          (listMean ((history.filter fun t => t.pnl < 0).map fun t => |t.pnl|))) ∧
    (∀ (st : BotState) (env : SignalEnv) (i : Instrument) (ord : Order),
      generate_signal_advanced cfg st env i = some ord →
      ord.risk_percent = compute_risk_percent cfg st.trade_history) := by
  refine ⟨?_, ?_, ?_⟩
  · intro hlen
    unfold compute_risk_percent
    rw [if_neg]
    intro hc
    exact absurd hc.2 (Nat.not_lt.mpr hlen)
  · intro hk hlen hw hl
    unfold compute_risk_percent
    rw [if_pos ⟨hk, hlen⟩]
    dsimp only
    rw [if_pos ⟨by simpa using hw, by simpa using hl⟩]
    simp [List.length_map]
  · intro st env i ord hord
    unfold generate_signal_advanced at hord
    cases hacc : env.account with
    | none =>
      rw [hacc] at hord
      exact Option.noConfusion hord
    | some balance =>
      cases hcp : env.current_price with
      | none =>
        rw [hacc, hcp] at hord
        dsimp only at hord
        split_ifs at hord
      | some cp =>
        rw [hacc, hcp] at hord
        dsimp only at hord
        split_ifs at hord
        all_goals rw [Option.some.injEq] at hord
        all_goals subst hord
        all_goals rfl

/-- Witness for C4's amended theorem: at 20 records (Kelly enabled) the
configured risk is used; at 21 records with wins and losses present the
Kelly fraction is used. -/
theorem C4_kelly_threshold_witness :
    compute_risk_percent cfg4 hist20 = cfg4.max_risk_per_trade ∧
    compute_risk_percent cfg4 hist21 =
      calculate_kelly_criterion cfg4
        (((hist21.filter fun t => 0 < t.pnl).length : ℚ) / hist21.length)
        (listMean ((hist21.filter fun t => 0 < t.pnl).map fun t => t.pnl))
        (listMean ((hist21.filter fun t => t.pnl < 0).map fun t => |t.pnl|)) :=
  ⟨(C4_kelly_threshold cfg4 hist20).1 (by decide),
   (C4_kelly_threshold cfg4 hist21).2.1 rfl (by decide) (by decide) (by decide)⟩


/-- C5: refuted at an explicit input.  A long position under a Sell
signal of confidence 0 (far below any action threshold) still triggers a
reversal-exit close and a trade-history append: the code checks only
the direction, never the confidence. -/
theorem C5_counterexample :
    pvReversal.signal.confidence < 1/2 ∧
    (manage_positions 7 init_state [pvReversal]).2 = [eur_usd] ∧
    (manage_positions 7 init_state [pvReversal]).1.trade_history =
      [⟨7, eur_usd, -25⟩] := by
  refine ⟨by norm_num [pvReversal, sigSellWeak], ?_, ?_⟩ <;>
    simp [manage_positions, manage_one, pvReversal, posLong, sigSellWeak,
      reversalCond, update_trade_history, init_state]

/-- C5 (amended): when market data for the position is available, the
lifecycle manager issues a reversal-exit close (appending a
TradeHistoryRecord with the position's unrealized PnL via
`update_trade_history`) exactly when the fresh signal's direction
opposes the held direction, with no confidence condition; otherwise it
leaves the state untouched and requests nothing. -/
theorem C5_reversal_exit (now : ℕ) (st : BotState) (pv : PositionView) (p : ℚ)
    (hh : pv.hist_nonempty = true) (hp : pv.current_price = some p) (hpz : p ≠ 0) :
    (reversalCond pv.position.units pv.signal.signal →
      manage_one now st pv =
        (update_trade_history st now pv.position.instrument pv.position.unrealized_pl,
         [pv.position.instrument])) ∧
    (¬ reversalCond pv.position.units pv.signal.signal →
      manage_one now st pv = (st, [])) := by
  constructor <;> intro h <;> simp [manage_one, hh, hp, hpz, h]

/-- Witness for C5's amended theorem at the long position under the
zero-confidence Sell signal. -/
theorem C5_reversal_exit_witness :
    manage_one 7 init_state pvReversal =
      (update_trade_history init_state 7 eur_usd (-25), [eur_usd]) :=
  (C5_reversal_exit 7 init_state pvReversal (11/10) rfl rfl (by norm_num)).1
    (Or.inl ⟨by decide, Or.inl rfl⟩)

/-- The trade-history component of `update_trade_history`: the appended
list trimmed to its most recent 100 entries. -/
theorem update_trade_history_history (st : BotState) (now : ℕ) (i : Instrument)
    (pnl : ℚ) :
    (update_trade_history st now i pnl).trade_history =
      (st.trade_history ++ [({ timestamp := now, instrument := i, pnl := pnl } : TradeRecord)]).drop
        ((st.trade_history.length + 1) - 100) := by
  unfold update_trade_history
  dsimp only
  split_ifs with h
  · simp [List.length_append]
  · have h0 : st.trade_history.length + 1 - 100 = 0 := by
      simp only [List.length_append, List.length_cons, List.length_nil] at h
      omega
    simp [h0]

/-- C8: starting from the empty history, after any sequence of appends
the trade history is exactly the suffix of the 100 most recently
appended records — so it never exceeds 100 entries, the oldest entries
are evicted first, and the retained records are the appended records
themselves, unmodified. -/
theorem C8_history_ring_buffer (rs : List TradeRecord) :
    (rs.foldl (fun st r => update_trade_history st r.timestamp r.instrument r.pnl)
        init_state).trade_history = rs.drop (rs.length - 100) ∧
    (rs.foldl (fun st r => update_trade_history st r.timestamp r.instrument r.pnl)
        init_state).trade_history.length = min rs.length 100 ∧
    (rs.foldl (fun st r => update_trade_history st r.timestamp r.instrument r.pnl)
        init_state).trade_history.IsSuffix rs := by
  have main : (rs.foldl (fun st r => update_trade_history st r.timestamp r.instrument r.pnl)
      init_state).trade_history = rs.drop (rs.length - 100) := by
    induction rs using List.reverseRecOn with
    | nil => simp [init_state]
    | append_singleton rs r ih =>
      rw [List.foldl_append, List.foldl_cons, List.foldl_nil,
        update_trade_history_history, ih]
      have heta : TradeRecord.mk r.timestamp r.instrument r.pnl = r := rfl
      rw [heta]
      rcases Nat.lt_or_ge rs.length 100 with hlt | hge
      · have h1 : rs.length - 100 = 0 := by omega
        rw [h1, List.drop_zero]
        have h2 : rs.length + 1 - 100 = 0 := by omega
        have h3 : (rs ++ [r]).length - 100 = 0 := by
          simp only [List.length_append, List.length_cons, List.length_nil]
          omega
        rw [h2, h3]
      · have hlen : (rs.drop (rs.length - 100)).length = 100 := by
          rw [List.length_drop]
          omega
        rw [hlen, show (100 : ℕ) + 1 - 100 = 1 from rfl]
        have h3 : (1 : ℕ) ≤ (rs.drop (rs.length - 100)).length := by
          rw [List.length_drop]
          omega
        rw [List.drop_append_of_le_length h3, List.drop_drop]
        have h4 : (rs ++ [r]).length - 100 = rs.length + 1 - 100 := by
          simp
        rw [h4]
        have h5 : rs.length + 1 - 100 ≤ rs.length := by omega
        rw [List.drop_append_of_le_length h5]
        have h6 : rs.length - 100 + 1 = rs.length + 1 - 100 := by omega
        rw [h6]
  refine ⟨main, ?_, ?_⟩
  · rw [main, List.length_drop]
    omega
  · rw [main]
    exact List.drop_suffix _ _


/-- Each per-position iteration either leaves the state alone and
requests nothing, or closes the position and records its PnL. -/
theorem manage_one_cases (now : ℕ) (st : BotState) (pv : PositionView) :
    manage_one now st pv = (st, []) ∨
    manage_one now st pv =
      (update_trade_history st now pv.position.instrument pv.position.unrealized_pl,
       [pv.position.instrument]) := by
  unfold manage_one
  cases hcp : pv.current_price with
  | none =>
    dsimp only
    split_ifs <;> exact Or.inl rfl
  | some p =>
    dsimp only
    split_ifs <;> first | exact Or.inl rfl | exact Or.inr rfl

/-- Folding `manage_positions` from an arbitrary close-accumulator just
prepends that accumulator to the collected closes. -/
theorem manage_positions_acc (now : ℕ) :
    ∀ (views : List PositionView) (st : BotState) (acc : List Instrument),
      views.foldl
          (fun acc pv =>
            let r := manage_one now acc.1 pv
            (r.1, acc.2 ++ r.2)) (st, acc) =
        ((manage_positions now st views).1, acc ++ (manage_positions now st views).2) := by
  intro views
  induction views with
  | nil =>
    intro st acc
    simp [manage_positions]
  | cons pv rest ih =>
    intro st acc
    rw [List.foldl_cons]
    dsimp only
    rw [ih]
    conv_rhs => rw [manage_positions, List.foldl_cons]
    dsimp only
    rw [show (rest.foldl
        (fun acc pv =>
          let r := manage_one now acc.1 pv
          (r.1, acc.2 ++ r.2)) ((manage_one now st pv).1, [] ++ (manage_one now st pv).2)) =
        (((manage_positions now (manage_one now st pv).1 rest).1,
          ([] ++ (manage_one now st pv).2) ++
            (manage_positions now (manage_one now st pv).1 rest).2)) from ih _ _]
    simp

/-- Unfolding one step of `manage_positions`. -/
theorem manage_positions_cons (now : ℕ) (st : BotState) (pv : PositionView)
    (views : List PositionView) :
    manage_positions now st (pv :: views) =
      ((manage_positions now (manage_one now st pv).1 views).1,
       (manage_one now st pv).2 ++
         (manage_positions now (manage_one now st pv).1 views).2) := by
  conv_lhs => rw [manage_positions, List.foldl_cons]
  dsimp only
  rw [manage_positions_acc]
  simp

/-- C9: refuted at an explicit input.  Running the lifecycle manager a
second time while it still observes the same open position under the
same reversal signal issues a second close request and appends a second
TradeHistoryRecord for the same position. -/
theorem C9_counterexample :
    (manage_positions 7 ((manage_positions 7 init_state [pvReversal]).1) [pvReversal]).2 =
      [eur_usd] ∧
    (manage_positions 7 ((manage_positions 7 init_state [pvReversal]).1)
        [pvReversal]).1.trade_history =
      [⟨7, eur_usd, -25⟩, ⟨7, eur_usd, -25⟩] := by
  constructor <;>
    simp [manage_positions, manage_one, pvReversal, posLong, sigSellWeak,
      reversalCond, update_trade_history, init_state]

/-- C9 (amended): close requests and trade-history appends only ever
concern instruments of positions the manager currently observes open.
Hence when the first close took effect — so the second invocation no
longer observes that position — the second invocation issues no close
request for its instrument and appends no record for it. -/
theorem C9_no_second_close (now : ℕ) (st : BotState) (views : List PositionView)
    (i : Instrument) (h : ∀ pv ∈ views, pv.position.instrument ≠ i) :
    i ∉ (manage_positions now st views).2 ∧
    (∀ r ∈ (manage_positions now st views).1.trade_history,
      r.instrument = i → r ∈ st.trade_history) := by
  induction views generalizing st with
  | nil =>
    refine ⟨by simp [manage_positions], ?_⟩
    intro r hr _
    simpa [manage_positions] using hr
  | cons pv rest ih =>
    have hpv : pv.position.instrument ≠ i := h pv (by simp)
    have hrest : ∀ pv' ∈ rest, pv'.position.instrument ≠ i := by
      intro pv' hm
      exact h pv' (by simp [hm])
    rw [manage_positions_cons]
    rcases manage_one_cases now st pv with hc | hc <;> rw [hc]
    · have := ih st hrest
      refine ⟨by simpa using this.1, ?_⟩
      intro r hr hi
      exact this.2 r (by simpa using hr) hi
    · dsimp only
      have := ih (update_trade_history st now pv.position.instrument
        pv.position.unrealized_pl) hrest
      constructor
      · intro hmem
        rcases List.mem_append.mp hmem with hmem | hmem
        · have hmem' : i = pv.position.instrument := by simpa using hmem
          exact hpv hmem'.symm
        · exact this.1 hmem
      · intro r hr hi
        have hr' := this.2 r hr hi
        rw [update_trade_history_history] at hr'
        have hr'' := List.mem_of_mem_drop hr'
        rcases List.mem_append.mp hr'' with hin | hin
        · exact hin
        · exfalso
          have hrec : r = TradeRecord.mk now pv.position.instrument
              pv.position.unrealized_pl := by simpa using hin
          rw [hrec] at hi
          exact hpv hi

/-- Witness for C9's amended theorem: with the EUR_USD position no
longer observed (only its close already recorded in the state), a run
over an empty observation list — and, more generally, any run whose
views avoid GBP_JPY — closes nothing and records nothing for GBP_JPY. -/
theorem C9_no_second_close_witness :
    gbp_jpy ∉ (manage_positions 7 (update_trade_history init_state 7 eur_usd (-25))
        [pvReversal]).2 ∧
    (∀ r ∈ (manage_positions 7 (update_trade_history init_state 7 eur_usd (-25))
        [pvReversal]).1.trade_history,
      r.instrument = gbp_jpy →
        r ∈ (update_trade_history init_state 7 eur_usd (-25)).trade_history) :=
  C9_no_second_close 7 (update_trade_history init_state 7 eur_usd (-25)) [pvReversal]
    gbp_jpy (by decide)


/-- `update_trade_history` never touches the `trades_today` counter. -/
theorem update_trade_history_trades_today (st : BotState) (now : ℕ)
    (i : Instrument) (pnl : ℚ) :
    (update_trade_history st now i pnl).trades_today = st.trades_today := by
  simp [update_trade_history]

/-- The lifecycle manager never touches the `trades_today` counter. -/
theorem manage_positions_trades_today (now : ℕ) (st : BotState)
    (views : List PositionView) :
    (manage_positions now st views).1.trades_today = st.trades_today := by
  induction views generalizing st with
  | nil => rfl
  | cons pv rest ih =>
    rw [manage_positions_cons]
    rcases manage_one_cases now st pv with hc | hc <;> rw [hc] <;> dsimp only
    · exact ih st
    · rw [ih]
      exact update_trade_history_trades_today st now pv.position.instrument
        pv.position.unrealized_pl

/-- Every order produced by `generate_signal_advanced` is for the
instrument it was asked about. -/
theorem generate_signal_instrument (cfg : RiskConfig) (st : BotState)
    (env : SignalEnv) (i : Instrument) (ord : Order)
    (hord : generate_signal_advanced cfg st env i = some ord) :
    ord.instrument = i := by
  unfold generate_signal_advanced at hord
  cases hacc : env.account with
  | none =>
    rw [hacc] at hord
    exact Option.noConfusion hord
  | some balance =>
    cases hcp : env.current_price with
    | none =>
      rw [hacc, hcp] at hord
      dsimp only at hord
      split_ifs at hord
    | some cp =>
      rw [hacc, hcp] at hord
      dsimp only at hord
      split_ifs at hord
      all_goals rw [Option.some.injEq] at hord
      all_goals subst hord
      all_goals rfl

/-- The new-entry loop's request list: at most one success, a success
only in last place, every requested instrument not already held, and at
most one `trades_today` increment. -/
theorem loop_entries_spec (cfg : RiskConfig) (st : BotState)
    (positions : List Position) (sigEnv : Instrument → SignalEnv)
    (order_success : Instrument → Bool) (instruments : List Instrument) :
    ((loop_entries cfg st positions sigEnv order_success instruments).2.filter
        fun r => r.2).length ≤ 1 ∧
    ((∃ n, (loop_entries cfg st positions sigEnv order_success instruments).2.map
        (fun r => r.2) = List.replicate n false) ∨
      (∃ n, (loop_entries cfg st positions sigEnv order_success instruments).2.map
        (fun r => r.2) = List.replicate n false ++ [true])) ∧
    (∀ r ∈ (loop_entries cfg st positions sigEnv order_success instruments).2,
      (positions.filter fun p => p.instrument = r.1.instrument) = []) ∧
    (loop_entries cfg st positions sigEnv order_success instruments).1.trades_today ≤
      st.trades_today + 1 := by
  induction instruments with
  | nil =>
    exact ⟨by simp [loop_entries], Or.inl ⟨0, by simp [loop_entries]⟩,
      by simp [loop_entries], by simp [loop_entries]⟩
  | cons i rest ih =>
    simp only [loop_entries]
    split_ifs with hheld hsucc
    · exact ih
    · cases hgen : generate_signal_advanced cfg st (sigEnv i) i with
      | none => exact ih
      | some ord =>
        refine ⟨by simp, Or.inr ⟨0, by simp⟩, ?_, by simp⟩
        intro r hr
        have hr' : r = (ord, true) := by simpa using hr
        subst hr'
        have hio : ord.instrument = i := generate_signal_instrument _ _ _ _ _ hgen
        dsimp only
        rw [hio]
        exact not_ne_iff.mp hheld
    · cases hgen : generate_signal_advanced cfg st (sigEnv i) i with
      | none => exact ih
      | some ord =>
        obtain ⟨ha, hb, hc, hd⟩ := ih
        refine ⟨by simpa using ha, ?_, ?_, hd⟩
        · rcases hb with ⟨n, hn⟩ | ⟨n, hn⟩
          · exact Or.inl ⟨n + 1, by simp [hn, List.replicate_succ]⟩
          · exact Or.inr ⟨n + 1, by simp [hn, List.replicate_succ]⟩
        · intro r hr
          rcases List.mem_cons.mp hr with hr' | hr'
          · subst hr'
            have hio : ord.instrument = i := generate_signal_instrument _ _ _ _ _ hgen
            dsimp only
            rw [hio]
            exact not_ne_iff.mp hheld
          · exact hc r hr'

/-- C6: refuted at an explicit input.  With two candidate instruments
both producing approved signals and the first order placement failing,
the cycle requests a second placement instead of stopping after the
first qualifying instrument: two order requests go out in a single
tick. -/
theorem C6_counterexample :
    ((execute_trading_cycle cfg0 [eur_usd, gbp_jpy] 2 cenvTwo init_state).2.2.map
        fun r => (r.1.instrument, r.2)) = [(eur_usd, false), (gbp_jpy, true)] := by
  have h1 : generate_signal_advanced cfg0 init_state envBuy eur_usd = some ordBuy := by
    norm_num [generate_signal_advanced, envBuy, cfg0, sigBuy, init_state,
      compute_risk_percent, rounded_position_size, calculate_position_size_fixed_risk,
      ratTrunc, check_correlation_risk, eur_usd, ordBuy]
    refine ⟨by decide, ?_, ?_⟩ <;>
      rw [abs_of_nonneg (by norm_num : (0:ℚ) ≤ 1/500)] <;> norm_num
  have h2 : generate_signal_advanced cfg0 init_state envBuy gbp_jpy =
      some { ordBuy with instrument := gbp_jpy } := by
    norm_num [generate_signal_advanced, envBuy, cfg0, sigBuy, init_state,
      compute_risk_percent, rounded_position_size, calculate_position_size_fixed_risk,
      ratTrunc, check_correlation_risk, gbp_jpy, ordBuy]
    refine ⟨by decide, ?_, ?_⟩ <;>
      rw [abs_of_nonneg (by norm_num : (0:ℚ) ≤ 1/500)] <;> norm_num
  have h0 : eur_usd ≠ gbp_jpy := by decide
  simp [execute_trading_cycle, cenvTwo, manage_positions, loop_entries, h1, h2,
    ordBuy, h0]

/-- C6 (amended): per tick the orchestrator skips held instruments and
opens at most one new position: at most one order request succeeds, a
successful request ends the iteration (every earlier request failed),
every request targets a non-held instrument, and `tradesToday` grows by
at most one.  A failed placement, however, moves on to the next
instrument instead of stopping the iteration. -/
theorem C6_one_new_position_per_tick (cfg : RiskConfig)
    (instruments : List Instrument) (max_positions : ℕ) (env : CycleEnv)
    (st : BotState) :
    ((execute_trading_cycle cfg instruments max_positions env st).2.2.filter
        fun r => r.2).length ≤ 1 ∧
    ((∃ n, (execute_trading_cycle cfg instruments max_positions env st).2.2.map
        (fun r => r.2) = List.replicate n false) ∨
      (∃ n, (execute_trading_cycle cfg instruments max_positions env st).2.2.map
        (fun r => r.2) = List.replicate n false ++ [true])) ∧
    (∀ r ∈ (execute_trading_cycle cfg instruments max_positions env st).2.2,
      (env.positions.filter fun p => p.instrument = r.1.instrument) = []) ∧
    (execute_trading_cycle cfg instruments max_positions env st).1.trades_today ≤
      st.trades_today + 1 := by
  unfold execute_trading_cycle
  split_ifs with hlt
  · dsimp only
    obtain ⟨ha, hb, hc, hd⟩ := loop_entries_spec cfg
      (manage_positions env.now st env.views).1 env.positions env.sigEnv
      env.order_success instruments
    refine ⟨ha, hb, hc, ?_⟩
    rw [manage_positions_trades_today] at hd
    exact hd
  · dsimp only
    refine ⟨by simp, Or.inl ⟨0, by simp⟩, by simp, ?_⟩
    rw [manage_positions_trades_today]
    exact Nat.le_succ _

end ForexBot
